import Mathlib

/-!
Shallow embedding of the `rcmd` job pool (crate `rcmd_lib`, files
`src/job.rs`, `src/job_pool.rs`, `src/util.rs`) together with proofs about
the claims of the specification.

Modelling conventions:
* `Instant` (tokio monotonic time) is a natural number; only `<`/`≤`
  comparisons of timestamps matter to the code.
* An unbounded mpsc channel is modelled by the list of `(line, timestamp)`
  pairs currently buffered inside it, in arrival order.
* The oneshot exit channel of a running job is `Option (Except String
  ExitStatus)`: `some r` means the manager task has already sent the exit
  result `r` (and, by the manager contract, both stream channels hold their
  final content), `none` means the result is still pending.  The io error a
  process wait can produce is modelled by the string of its debug rendering.
* The kill oneshot carries no data; its effect (the manager killing the
  process and finishing) is modelled by the environment values that the
  blocking `exit_rx.await` in `update_job_state` observes: the exit result
  and the lines that still arrive on the stream channels before the manager
  finishes (`AdvanceEnv.killExitResult`, `killExtraStdout`, `killExtraStderr`).
* The non-blocking path captures `Instant::now()` once; that reading is the
  environment value `AdvanceEnv.now`.
* Lines arriving on the channels of a running job between two pool calls
  are an environment event, modelled by `Job.deliver` / `JobPool.deliverTo`.
* The `HashMap<u64, Job>` is modelled by an association list with the usual
  map semantics (`mapLookup`, `mapRemove`, `mapInsert`); `insert` replaces,
  so keys are effectively unique.
* The `AtomicU64` id counter wraps: `fetch_add(1)` returns the old value
  and stores the successor modulo `2 ^ 64`.
* Fallibility of `std::process::Command::spawn` is a parameter of `submit`:
  `Except String (Option Nat)` carries either the spawn error message or
  the pid (`Child::id()` returns an optional u32).
-/

/-- Model of `tokio::time::Instant`: a monotonic timestamp. -/
abbrev Instant := Nat

/-- Modulus of the `u64` id counter. -/
def u64Mod : Nat := 2 ^ 64

/-- `rcmd_data::JobSpec` (src/job.rs). -/
structure JobSpec where
  command : String
  arguments : List String
deriving DecidableEq

/-- `JobSpec::new` (src/job.rs). -/
def JobSpec.new (command : String) (args : List String) : JobSpec :=
  { command := command, arguments := args }

/-- `rcmd_data::JobOutput` (src/job.rs). -/
structure JobOutput where
  stdout_lines : List String
  stderr_lines : List String
deriving DecidableEq

/-- `JobOutput::new` (src/job.rs). -/
def JobOutput.new : JobOutput :=
  { stdout_lines := [], stderr_lines := [] }

/-- `JobOutput::append` (src/job.rs): append lines at the end of each stream. -/
def JobOutput.append (o : JobOutput) (stdout_lines stderr_lines : List String) : JobOutput :=
  { stdout_lines := o.stdout_lines ++ stdout_lines
    stderr_lines := o.stderr_lines ++ stderr_lines }

/-- `rcmd_data::JobStatus` (src/job.rs), the external projection of a state. -/
inductive JobStatus where
  | Running : JobStatus
  | Completed (exit_code : Int) : JobStatus
  | Terminated : JobStatus
  | Error (msg : String) : JobStatus
deriving DecidableEq

deriving instance DecidableEq for Except

/-- Model of `std::process::ExitStatus`: `code` is `some c` unless the
process was killed by a signal. -/
structure ExitStatus where
  code : Option Int
deriving DecidableEq

/-- `JobState` (src/job_pool.rs).  `Running` holds the buffered content of
the stdout / stderr channels and the pending or already-sent exit result;
the kill-signal send end carries no state and is left implicit. -/
inductive JobState where
  | Running (stdout_rx stderr_rx : List (String × Instant))
      (exit_rx : Option (Except String ExitStatus)) : JobState
  | Completed (exit_code : Int) : JobState
  | Terminated : JobState
  | Error (msg : String) : JobState
deriving DecidableEq

/-- `impl From<&JobState> for JobStatus` (src/job_pool.rs). -/
def JobStatus.fromState : JobState → JobStatus
  | JobState.Running _ _ _ => JobStatus.Running
  | JobState.Completed exit_code => JobStatus.Completed exit_code
  | JobState.Terminated => JobStatus.Terminated
  | JobState.Error msg => JobStatus.Error msg

/-- Whether a state is the `Running` variant. -/
def JobState.isRunning : JobState → Bool
  | JobState.Running _ _ _ => true
  | _ => false

/-- `Job` (src/job_pool.rs). -/
structure Job where
  id : Nat
  pid : Option Nat
  spec : JobSpec
  state : JobState
  output : JobOutput
deriving DecidableEq

/-- `JobPool` (src/job_pool.rs): id counter and map of jobs. -/
structure JobPool where
  next_job_id : Nat
  jobs : List (Nat × Job)
deriving DecidableEq

/-- `JobPool::new` (src/job_pool.rs). -/
def JobPool.new : JobPool :=
  { next_job_id := 0, jobs := [] }

/-- `HashMap::get` on the association-list model. -/
def mapLookup {α : Type} : List (Nat × α) → Nat → Option α
  | [], _ => none
  | (k, v) :: rest, k2 => if k = k2 then some v else mapLookup rest k2

/-- `HashMap::remove` on the association-list model (drops every pair with
the given key; keys are unique under map semantics). -/
def mapRemove {α : Type} : List (Nat × α) → Nat → List (Nat × α)
  | [], _ => []
  | (k, v) :: rest, k2 => if k = k2 then mapRemove rest k2 else (k, v) :: mapRemove rest k2

/-- `HashMap::insert` on the association-list model: replaces any previous
binding of the key. -/
def mapInsert {α : Type} (m : List (Nat × α)) (k : Nat) (v : α) : List (Nat × α) :=
  (k, v) :: mapRemove m k

/-- Environment observed by one `update_job_state` call: the `Instant::now()`
reading of the non-blocking path, and for the kill path with a still-pending
exit result, the exit value the blocking await eventually receives together
with the lines that reach the stream channels before the manager finishes. -/
structure AdvanceEnv where
  now : Instant
  killExtraStdout : List (String × Instant)
  killExtraStderr : List (String × Instant)
  killExitResult : Except String ExitStatus
deriving DecidableEq

/-- Lines and an exit notification arriving on the channels of a running
job between two pool operations (an environment event, not pool code). -/
structure Arrivals where
  newStdout : List (String × Instant)
  newStderr : List (String × Instant)
  exitArrival : Option (Except String ExitStatus)
deriving DecidableEq

/-- Channel arrivals applied to one job: lines are appended to the buffered
channel content, the exit result arrives at most once.  Identity on
terminal states (their channels are gone). -/
def Job.deliver (job : Job) (a : Arrivals) : Job :=
  match job.state with
  | JobState.Running so se ex =>
      { job with
          state := JobState.Running (so ++ a.newStdout) (se ++ a.newStderr)
            (match ex with
             | some r => some r
             | none => a.exitArrival) }
  | _ => job

/-- `receive_lines_until` (src/util.rs): drain the channel until it is
empty or a pair with timestamp strictly after the cutoff has been pulled;
that pair is included.  Returns the pulled lines in arrival order and the
remaining channel content. -/
def receive_lines_until :
    List (String × Instant) → Instant → List String × List (String × Instant)
  | [], _ => ([], [])
  | (line, timestamp) :: rest, untilT =>
      if untilT < timestamp then ([line], rest)
      else
        let r := receive_lines_until rest untilT
        (line :: r.1, r.2)

/-- `receive_all_lines` (src/util.rs): drain the channel to the end (called
only once the senders have finished, so the buffered content is final). -/
def receive_all_lines (buf : List (String × Instant)) : List String :=
  buf.map Prod.fst

/-- `finish_job` (src/job_pool.rs): drain both channels completely and map
the exit result to the terminal state. -/
def finish_job (exit_status : Except String ExitStatus) (job_output : JobOutput)
    (stdout_rx stderr_rx : List (String × Instant)) : JobState × JobOutput :=
  let stdout_lines := receive_all_lines stdout_rx
  let stderr_lines := receive_all_lines stderr_rx
  let job_output := job_output.append stdout_lines stderr_lines
  match exit_status with
  | Except.ok es =>
      match es.code with
      | some exit_code => (JobState.Completed exit_code, job_output)
      | none => (JobState.Terminated, job_output)
  | Except.error io_err =>
      (JobState.Error ("unexpected io error when waiting for job process " ++ io_err),
        job_output)

/-- `JobPool::update_job_state` (src/job_pool.rs): identity on terminal
states; on `Running` either finish the job (kill, or exit result already
available) or drain the channels up to now and stay `Running`. -/
def JobPool.update_job_state (job : Job) (kill : Bool) (env : AdvanceEnv) : Job :=
  match job.state with
  | JobState.Running stdout_rx stderr_rx exit_rx =>
      if kill then
        let fin :=
          match exit_rx with
          | some exit_result => finish_job exit_result job.output stdout_rx stderr_rx
          | none =>
              finish_job env.killExitResult job.output
                (stdout_rx ++ env.killExtraStdout) (stderr_rx ++ env.killExtraStderr)
        { job with state := fin.1, output := fin.2 }
      else
        match exit_rx with
        | some exit_result =>
            let fin := finish_job exit_result job.output stdout_rx stderr_rx
            { job with state := fin.1, output := fin.2 }
        | none =>
            let so := receive_lines_until stdout_rx env.now
            let se := receive_lines_until stderr_rx env.now
            { job with
                state := JobState.Running so.2 se.2 none
                output := job.output.append so.1 se.1 }
  | _ => job

/-- `JobPool::submit` (src/job_pool.rs): fetch-and-increment the id counter,
attempt the spawn (outcome is the `spawnRes` parameter), build the `Job`
(`Error` state and no pid on spawn failure, fresh `Running` channels and
the pid on success), insert it into the map and return the id.  The return
type is total: submit never returns an error. -/
def JobPool.submit (p : JobPool) (command : String) (args : List String)
    (spawnRes : Except String (Option Nat)) : Nat × JobPool :=
  let id := p.next_job_id % u64Mod
  let pidState : Option Nat × JobState :=
    match spawnRes with
    | Except.ok pid => (pid, JobState.Running [] [] none)
    | Except.error err => (none, JobState.Error err)
  let job : Job :=
    { id := id, pid := pidState.1, spec := JobSpec.new command args,
      state := pidState.2, output := JobOutput.new }
  (id, { next_job_id := (id + 1) % u64Mod, jobs := mapInsert p.jobs id job })

/-- `JobPool::delete` (src/job_pool.rs): remove the job if present; if it
was running, advance with kill; report the message only if the advanced
state is `Error`.  The job is never reinserted. -/
def JobPool.delete (p : JobPool) (id : Nat) (env : AdvanceEnv) : Option String × JobPool :=
  match mapLookup p.jobs id with
  | none => (none, p)
  | some job =>
      let jobs := mapRemove p.jobs id
      match job.state with
      | JobState.Running _ _ _ =>
          let job := JobPool.update_job_state job true env
          match job.state with
          | JobState.Error msg =>
              (some ("deletion resulted in error state: " ++ msg), { p with jobs := jobs })
          | _ => (none, { p with jobs := jobs })
      | _ => (none, { p with jobs := jobs })

/-- `JobPool::status` (src/job_pool.rs): remove, advance without kill,
reinsert, return the external projection of the state. -/
def JobPool.status (p : JobPool) (id : Nat) (env : AdvanceEnv) :
    Option JobStatus × JobPool :=
  match mapLookup p.jobs id with
  | none => (none, p)
  | some job =>
      let jobs := mapRemove p.jobs id
      let job := JobPool.update_job_state job false env
      (some (JobStatus.fromState job.state), { p with jobs := mapInsert jobs id job })

/-- `JobPool::output` (src/job_pool.rs): remove, advance without kill,
reinsert, return a clone of the accumulated output. -/
def JobPool.output (p : JobPool) (id : Nat) (env : AdvanceEnv) :
    Option JobOutput × JobPool :=
  match mapLookup p.jobs id with
  | none => (none, p)
  | some job =>
      let jobs := mapRemove p.jobs id
      let job := JobPool.update_job_state job false env
      (some job.output, { p with jobs := mapInsert jobs id job })

/-- `JobPool::list` (src/job_pool.rs): snapshot of ids and specs.  The
function reads the map only; the pool is unchanged by construction. -/
def JobPool.list (p : JobPool) : List (Nat × JobSpec) :=
  p.jobs.map (fun kv => (kv.1, kv.2.spec))

/-- Channel arrivals applied to the job stored under `id`, if any (an
environment event between pool operations). -/
def JobPool.deliverTo (p : JobPool) (id : Nat) (a : Arrivals) : JobPool :=
  match mapLookup p.jobs id with
  | none => p
  | some job => { p with jobs := mapInsert (mapRemove p.jobs id) id (job.deliver a) }

/-- One result a `read_line` call of the stream-reader loop in
`read_to_end` (src/util.rs) can produce: a line (`Ok(n)`, `n > 0`),
end of file (`Ok(0)`), an invalid-UTF-8 error (`ErrorKind::InvalidData`,
the line buffer left as restored by tokio: empty), or any other io error
(the line buffer may hold the bytes read so far, carried as `pending`). -/
inductive ReadEvent where
  | line (s : String) : ReadEvent
  | eof : ReadEvent
  | invalidData : ReadEvent
  | otherError (pending : String) : ReadEvent
deriving DecidableEq

/-- `read_to_end` (src/util.rs) as a function from the sequence of
`read_line` outcomes to the lines sent on the channel: loops until EOF;
on invalid UTF-8 pushes the sentinel into the (empty) buffer and sends it;
on any other error logs and still sends the buffer; every non-EOF
iteration ends in a send. -/
def read_to_end : List ReadEvent → List String
  | [] => []
  | ReadEvent.eof :: _ => []
  | ReadEvent.line s :: rest => s :: read_to_end rest
  | ReadEvent.invalidData :: rest => "###INVALID UTF8###" :: read_to_end rest
  | ReadEvent.otherError pending :: rest => pending :: read_to_end rest

/-- The line that one non-EOF read event makes `read_to_end` send. -/
def eventLine : ReadEvent → String
  | ReadEvent.line s => s
  | ReadEvent.eof => ""
  | ReadEvent.invalidData => "###INVALID UTF8###"
  | ReadEvent.otherError pending => pending

/-- One pool operation of an interaction trace: a status, output or delete
call (each with the advance environment it observes) or an environment
delivery of channel arrivals to one job. -/
inductive PoolOp where
  | statusOp (id : Nat) (env : AdvanceEnv) : PoolOp
  | outputOp (id : Nat) (env : AdvanceEnv) : PoolOp
  | deleteOp (id : Nat) (env : AdvanceEnv) : PoolOp
  | deliverOp (id : Nat) (a : Arrivals) : PoolOp
deriving DecidableEq

/-- Whether an operation is a delete of the given id. -/
def PoolOp.isDeleteOf : PoolOp → Nat → Bool
  | PoolOp.deleteOp i _, id => i = id
  | _, _ => false

/-- The pool reached after running one operation (return values dropped). -/
def applyOp (p : JobPool) : PoolOp → JobPool
  | PoolOp.statusOp id env => (p.status id env).2
  | PoolOp.outputOp id env => (p.output id env).2
  | PoolOp.deleteOp id env => (p.delete id env).2
  | PoolOp.deliverOp id a => p.deliverTo id a

/-- The pool reached after running a trace of operations in order. -/
def applyOps (p : JobPool) : List PoolOp → JobPool
  | [] => p
  | op :: rest => applyOps (applyOp p op) rest

/-- The pool after `n` submit calls, the inputs of call `k` (command,
arguments, spawn outcome) given by `f k`. -/
def submitN (p : JobPool) (f : Nat → String × List String × Except String (Option Nat)) :
    Nat → JobPool
  | 0 => p
  | n + 1 =>
      let q := submitN p f n
      (q.submit (f n).1 (f n).2.1 (f n).2.2).2

/-- The id returned by submit call number `n` (0-based) in the sequence
driven by `f`, starting from pool `p`. -/
def nthSubmitId (p : JobPool) (f : Nat → String × List String × Except String (Option Nat))
    (n : Nat) : Nat :=
  ((submitN p f n).submit (f n).1 (f n).2.1 (f n).2.2).1

/-- A sample advance environment for concrete evaluations: time 0, no
further arrivals, a clean exit result. -/
def env0 : AdvanceEnv :=
  { now := 0, killExtraStdout := [], killExtraStderr := [],
    killExitResult := Except.ok { code := some 0 } }

/-- A sample running job whose exit channel already holds an io error. -/
def errJob : Job :=
  { id := 0, pid := some 42, spec := JobSpec.new "x" [],
    state := JobState.Running [] [] (some (Except.error "boom")),
    output := JobOutput.new }

/-- A pool containing only `errJob` under id 0. -/
def errPool : JobPool :=
  { next_job_id := 1, jobs := [(0, errJob)] }

/-- A sample job already in the `Completed` state. -/
def doneJob : Job :=
  { id := 0, pid := some 7, spec := JobSpec.new "ls" [],
    state := JobState.Completed 0,
    output := { stdout_lines := ["hi\n"], stderr_lines := [] } }

/-- A pool containing only `doneJob` under id 0. -/
def donePool : JobPool :=
  { next_job_id := 1, jobs := [(0, doneJob)] }

/-- A sample running job with one buffered stdout line. -/
def streamJob : Job :=
  { id := 0, pid := some 9, spec := JobSpec.new "bash" ["-c", "loop"],
    state := JobState.Running [("hi\n", 1)] [] none,
    output := JobOutput.new }

/-- A pool containing only `streamJob` under id 0. -/
def streamPool : JobPool :=
  { next_job_id := 1, jobs := [(0, streamJob)] }

/-- A sample delivery of one more stdout line at time 2. -/
def arr0 : Arrivals :=
  { newStdout := [("hi\n", 2)], newStderr := [], exitArrival := none }

example :
    read_to_end [ReadEvent.invalidData, ReadEvent.line "a\n", ReadEvent.eof] =
      ["###INVALID UTF8###", "a\n"] := by decide

example :
    receive_lines_until [("a", 1), ("b", 5), ("c", 2)] 3 = (["a", "b"], [("c", 2)]) := by
  decide

/-! Helper lemmas on the association-list map model. -/

theorem mapLookup_mapRemove_self {α : Type} (m : List (Nat × α)) (k : Nat) :
    mapLookup (mapRemove m k) k = none := by
  induction m with
  | nil => rfl
  | cons kv rest ih =>
      obtain ⟨k2, v⟩ := kv
      by_cases h : k2 = k
      · simp [mapRemove, h, ih]
      · simp [mapRemove, h, mapLookup, ih]

theorem mapLookup_mapRemove_ne {α : Type} (m : List (Nat × α)) (k k2 : Nat)
    (h : k ≠ k2) : mapLookup (mapRemove m k) k2 = mapLookup m k2 := by
  induction m with
  | nil => rfl
  | cons kv rest ih =>
      obtain ⟨k3, v⟩ := kv
      by_cases h3 : k3 = k
      · subst h3
        simp [mapRemove, mapLookup, h, ih]
      · by_cases h4 : k3 = k2 <;> simp [mapRemove, mapLookup, h3, h4, ih, Ne.symm h]

theorem mapLookup_mapInsert_self {α : Type} (m : List (Nat × α)) (k : Nat) (v : α) :
    mapLookup (mapInsert m k v) k = some v := by
  simp [mapInsert, mapLookup]

theorem mapLookup_mapInsert_ne {α : Type} (m : List (Nat × α)) (k k2 : Nat) (v : α)
    (h : k ≠ k2) : mapLookup (mapInsert m k v) k2 = mapLookup m k2 := by
  simp [mapInsert, mapLookup, h, mapLookup_mapRemove_ne m k k2 h]

theorem mapLookup_map_snd {α β : Type} (f : α → β) (m : List (Nat × α)) (k : Nat) :
    mapLookup (m.map (fun kv => (kv.1, f kv.2))) k = (mapLookup m k).map f := by
  induction m with
  | nil => rfl
  | cons kv rest ih =>
      obtain ⟨k2, v⟩ := kv
      by_cases h : k2 = k <;> simp [mapLookup, h, ih]

/-! Helper lemmas on jobs and state advancement. -/

theorem Job.deliver_of_not_running (job : Job) (a : Arrivals)
    (h : job.state.isRunning = false) : job.deliver a = job := by
  unfold Job.deliver
  cases hs : job.state <;> simp_all [JobState.isRunning]

theorem Job.deliver_output (job : Job) (a : Arrivals) :
    (job.deliver a).output = job.output := by
  unfold Job.deliver
  cases job.state <;> simp

theorem Job.deliver_spec (job : Job) (a : Arrivals) :
    (job.deliver a).spec = job.spec := by
  unfold Job.deliver
  cases job.state <;> simp

theorem update_job_state_of_not_running (job : Job) (kill : Bool) (env : AdvanceEnv)
    (h : job.state.isRunning = false) : JobPool.update_job_state job kill env = job := by
  unfold JobPool.update_job_state
  cases hs : job.state <;> simp_all [JobState.isRunning]

theorem update_job_state_spec (job : Job) (kill : Bool) (env : AdvanceEnv) :
    (JobPool.update_job_state job kill env).spec = job.spec := by
  unfold JobPool.update_job_state
  cases job.state with
  | Running so se ex => cases kill <;> cases ex <;> simp
  | Completed c => simp
  | Terminated => simp
  | Error msg => simp

theorem finish_job_output (ex : Except String ExitStatus) (o : JobOutput)
    (so se : List (String × Instant)) :
    (finish_job ex o so se).2 = o.append (receive_all_lines so) (receive_all_lines se) := by
  unfold finish_job
  cases ex with
  | ok es => cases hc : es.code <;> simp [hc]
  | error e => simp

theorem update_job_state_output_extends (job : Job) (kill : Bool) (env : AdvanceEnv) :
    ∃ t u, (JobPool.update_job_state job kill env).output.stdout_lines =
        job.output.stdout_lines ++ t ∧
      (JobPool.update_job_state job kill env).output.stderr_lines =
        job.output.stderr_lines ++ u := by
  unfold JobPool.update_job_state
  cases job.state with
  | Running so se ex =>
      cases kill with
      | true =>
          cases ex with
          | none =>
              refine ⟨receive_all_lines (so ++ env.killExtraStdout),
                receive_all_lines (se ++ env.killExtraStderr), ?_, ?_⟩ <;>
                simp [finish_job_output, JobOutput.append]
          | some r =>
              refine ⟨receive_all_lines so, receive_all_lines se, ?_, ?_⟩ <;>
                simp [finish_job_output, JobOutput.append]
      | false =>
          cases ex with
          | none =>
              refine ⟨(receive_lines_until so env.now).1,
                (receive_lines_until se env.now).1, ?_, ?_⟩ <;>
                simp [JobOutput.append]
          | some r =>
              refine ⟨receive_all_lines so, receive_all_lines se, ?_, ?_⟩ <;>
                simp [finish_job_output, JobOutput.append]
  | Completed c => exact ⟨[], [], by simp⟩
  | Terminated => exact ⟨[], [], by simp⟩
  | Error msg => exact ⟨[], [], by simp⟩

/-! Helper lemmas unfolding the pool operations on present / absent ids. -/

theorem status_eq_of_none (p : JobPool) (id : Nat) (env : AdvanceEnv)
    (h : mapLookup p.jobs id = none) : p.status id env = (none, p) := by
  simp [JobPool.status, h]

theorem status_eq_of_some (p : JobPool) (id : Nat) (env : AdvanceEnv) (job : Job)
    (h : mapLookup p.jobs id = some job) :
    p.status id env =
      (some (JobStatus.fromState (JobPool.update_job_state job false env).state),
        { p with jobs :=
            mapInsert (mapRemove p.jobs id) id (JobPool.update_job_state job false env) }) := by
  simp [JobPool.status, h]

theorem output_eq_of_none (p : JobPool) (id : Nat) (env : AdvanceEnv)
    (h : mapLookup p.jobs id = none) : p.output id env = (none, p) := by
  simp [JobPool.output, h]

theorem output_eq_of_some (p : JobPool) (id : Nat) (env : AdvanceEnv) (job : Job)
    (h : mapLookup p.jobs id = some job) :
    p.output id env =
      (some (JobPool.update_job_state job false env).output,
        { p with jobs :=
            mapInsert (mapRemove p.jobs id) id (JobPool.update_job_state job false env) }) := by
  simp [JobPool.output, h]

theorem delete_eq_of_none (p : JobPool) (id : Nat) (env : AdvanceEnv)
    (h : mapLookup p.jobs id = none) : p.delete id env = (none, p) := by
  simp [JobPool.delete, h]

theorem delete_pool_of_some (p : JobPool) (id : Nat) (env : AdvanceEnv) (job : Job)
    (h : mapLookup p.jobs id = some job) :
    (p.delete id env).2 = { p with jobs := mapRemove p.jobs id } := by
  unfold JobPool.delete
  rw [h]
  split
  · contradiction
  · dsimp only
    split
    · split <;> rfl
    · rfl

theorem delete_fst_of_running (p : JobPool) (id : Nat) (env : AdvanceEnv) (job : Job)
    (h : mapLookup p.jobs id = some job) (so se : List (String × Instant))
    (ex : Option (Except String ExitStatus)) (hjs : job.state = JobState.Running so se ex) :
    (p.delete id env).1 =
      match (JobPool.update_job_state job true env).state with
      | JobState.Error msg => some ("deletion resulted in error state: " ++ msg)
      | _ => none := by
  unfold JobPool.delete
  rw [h]
  dsimp only
  rw [hjs]
  dsimp only
  split <;> rfl

theorem delete_fst_of_terminal (p : JobPool) (id : Nat) (env : AdvanceEnv) (job : Job)
    (h : mapLookup p.jobs id = some job) (hterm : job.state.isRunning = false) :
    (p.delete id env).1 = none := by
  unfold JobPool.delete
  rw [h]
  dsimp only
  cases hjs : job.state with
  | Running so se ex => rw [hjs] at hterm; simp [JobState.isRunning] at hterm
  | Completed c => rfl
  | Terminated => rfl
  | Error msg => rfl

theorem deliverTo_eq_of_none (p : JobPool) (id : Nat) (a : Arrivals)
    (h : mapLookup p.jobs id = none) : p.deliverTo id a = p := by
  simp [JobPool.deliverTo, h]

theorem deliverTo_eq_of_some (p : JobPool) (id : Nat) (a : Arrivals) (job : Job)
    (h : mapLookup p.jobs id = some job) :
    p.deliverTo id a =
      { p with jobs := mapInsert (mapRemove p.jobs id) id (job.deliver a) } := by
  simp [JobPool.deliverTo, h]

/-! An id that is absent from the map stays absent under any trace of
status / output / delete / delivery operations. -/

theorem applyOp_absent (p : JobPool) (id : Nat) (op : PoolOp)
    (h : mapLookup p.jobs id = none) : mapLookup (applyOp p op).jobs id = none := by
  cases op with
  | statusOp i env =>
      by_cases hi : i = id
      · subst hi
        simp [applyOp, status_eq_of_none p i env h, h]
      · cases hl : mapLookup p.jobs i with
        | none => simp [applyOp, status_eq_of_none p i env hl, h]
        | some j =>
            simp [applyOp, status_eq_of_some p i env j hl,
              mapLookup_mapInsert_ne _ i id _ hi, mapLookup_mapRemove_ne _ i id hi, h]
  | outputOp i env =>
      by_cases hi : i = id
      · subst hi
        simp [applyOp, output_eq_of_none p i env h, h]
      · cases hl : mapLookup p.jobs i with
        | none => simp [applyOp, output_eq_of_none p i env hl, h]
        | some j =>
            simp [applyOp, output_eq_of_some p i env j hl,
              mapLookup_mapInsert_ne _ i id _ hi, mapLookup_mapRemove_ne _ i id hi, h]
  | deleteOp i env =>
      cases hl : mapLookup p.jobs i with
      | none => simp [applyOp, delete_eq_of_none p i env hl, h]
      | some j =>
          by_cases hi : i = id
          · subst hi
            simp [applyOp, delete_pool_of_some p i env j hl, mapLookup_mapRemove_self, h]
          · simp [applyOp, delete_pool_of_some p i env j hl,
              mapLookup_mapRemove_ne _ i id hi, h]
  | deliverOp i a =>
      by_cases hi : i = id
      · subst hi
        simp [applyOp, deliverTo_eq_of_none p i a h, h]
      · cases hl : mapLookup p.jobs i with
        | none => simp [applyOp, deliverTo_eq_of_none p i a hl, h]
        | some j =>
            simp [applyOp, deliverTo_eq_of_some p i a j hl,
              mapLookup_mapInsert_ne _ i id _ hi, mapLookup_mapRemove_ne _ i id hi, h]

theorem applyOps_absent (p : JobPool) (id : Nat) (ops : List PoolOp)
    (h : mapLookup p.jobs id = none) : mapLookup (applyOps p ops).jobs id = none := by
  induction ops generalizing p with
  | nil => exact h
  | cons op rest ih => exact ih (applyOp p op) (applyOp_absent p id op h)

/-! A job in a terminal state is left untouched (same stored `Job` value)
by any trace of status / output / delivery operations and deletes of other
ids. -/

theorem applyOp_stable (p : JobPool) (id : Nat) (job : Job)
    (hjob : mapLookup p.jobs id = some job) (hterm : job.state.isRunning = false)
    (op : PoolOp) (hop : op.isDeleteOf id = false) :
    mapLookup (applyOp p op).jobs id = some job := by
  cases op with
  | statusOp i env =>
      by_cases hi : i = id
      · subst hi
        simp [applyOp, status_eq_of_some p i env job hjob,
          update_job_state_of_not_running job false env hterm, mapLookup_mapInsert_self]
      · cases hl : mapLookup p.jobs i with
        | none => simp [applyOp, status_eq_of_none p i env hl, hjob]
        | some j =>
            simp [applyOp, status_eq_of_some p i env j hl,
              mapLookup_mapInsert_ne _ i id _ hi, mapLookup_mapRemove_ne _ i id hi, hjob]
  | outputOp i env =>
      by_cases hi : i = id
      · subst hi
        simp [applyOp, output_eq_of_some p i env job hjob,
          update_job_state_of_not_running job false env hterm, mapLookup_mapInsert_self]
      · cases hl : mapLookup p.jobs i with
        | none => simp [applyOp, output_eq_of_none p i env hl, hjob]
        | some j =>
            simp [applyOp, output_eq_of_some p i env j hl,
              mapLookup_mapInsert_ne _ i id _ hi, mapLookup_mapRemove_ne _ i id hi, hjob]
  | deleteOp i env =>
      have hi : i ≠ id := by
        intro hc
        subst hc
        simp [PoolOp.isDeleteOf] at hop
      cases hl : mapLookup p.jobs i with
      | none => simp [applyOp, delete_eq_of_none p i env hl, hjob]
      | some j =>
          simp [applyOp, delete_pool_of_some p i env j hl,
            mapLookup_mapRemove_ne _ i id hi, hjob]
  | deliverOp i a =>
      by_cases hi : i = id
      · subst hi
        simp [applyOp, deliverTo_eq_of_some p i a job hjob,
          Job.deliver_of_not_running job a hterm, mapLookup_mapInsert_self]
      · cases hl : mapLookup p.jobs i with
        | none => simp [applyOp, deliverTo_eq_of_none p i a hl, hjob]
        | some j =>
            simp [applyOp, deliverTo_eq_of_some p i a j hl,
              mapLookup_mapInsert_ne _ i id _ hi, mapLookup_mapRemove_ne _ i id hi, hjob]

theorem applyOps_stable (p : JobPool) (id : Nat) (job : Job)
    (hjob : mapLookup p.jobs id = some job) (hterm : job.state.isRunning = false)
    (ops : List PoolOp) (hops : ∀ op ∈ ops, op.isDeleteOf id = false) :
    mapLookup (applyOps p ops).jobs id = some job := by
  induction ops generalizing p with
  | nil => exact hjob
  | cons op rest ih =>
      exact ih (applyOp p op)
        (applyOp_stable p id job hjob hterm op (hops op (List.mem_cons_self op rest)))
        (fun o ho => hops o (List.mem_cons_of_mem op ho))

theorem output_fst_of_some (p : JobPool) (id : Nat) (env : AdvanceEnv) (job : Job)
    (h : mapLookup p.jobs id = some job) :
    (p.output id env).1 = some (JobPool.update_job_state job false env).output := by
  rw [output_eq_of_some p id env job h]

theorem output_lookup_after (p : JobPool) (id : Nat) (env : AdvanceEnv) (job : Job)
    (h : mapLookup p.jobs id = some job) :
    mapLookup (p.output id env).2.jobs id = some (JobPool.update_job_state job false env) := by
  rw [output_eq_of_some p id env job h]
  exact mapLookup_mapInsert_self _ _ _

theorem deliverTo_lookup_after (p : JobPool) (id : Nat) (a : Arrivals) (job : Job)
    (h : mapLookup p.jobs id = some job) :
    mapLookup (p.deliverTo id a).jobs id = some (job.deliver a) := by
  rw [deliverTo_eq_of_some p id a job h]
  exact mapLookup_mapInsert_self _ _ _

/-- C1: `submit` always returns an id and inserts a `Job` under that id
into the map; its return type carries no error case.  If the spawn fails,
the inserted job has state `Error` with the spawn error message and
`pid = none`, and a subsequent `status` on that id returns that `Error`. -/
theorem submit_always_inserts :
    ∀ (p : JobPool) (command : String) (args : List String)
      (spawnRes : Except String (Option Nat)) (env : AdvanceEnv),
      (∃ job, mapLookup (p.submit command args spawnRes).2.jobs
          (p.submit command args spawnRes).1 = some job) ∧
      (∀ err, spawnRes = Except.error err →
        mapLookup (p.submit command args spawnRes).2.jobs (p.submit command args spawnRes).1 =
          some { id := (p.submit command args spawnRes).1, pid := none,
                 spec := JobSpec.new command args, state := JobState.Error err,
                 output := JobOutput.new } ∧
        ((p.submit command args spawnRes).2.status (p.submit command args spawnRes).1 env).1 =
          some (JobStatus.Error err)) := by
  intro p command args spawnRes env
  constructor
  · exact ⟨_, mapLookup_mapInsert_self _ _ _⟩
  · intro err herr
    subst herr
    have hlook : mapLookup (p.submit command args (Except.error err)).2.jobs
        (p.submit command args (Except.error err)).1 =
        some { id := (p.submit command args (Except.error err)).1, pid := none,
               spec := JobSpec.new command args, state := JobState.Error err,
               output := JobOutput.new } := by
      simp [JobPool.submit, mapLookup_mapInsert_self]
    refine ⟨hlook, ?_⟩
    rw [status_eq_of_some _ _ env _ hlook,
      update_job_state_of_not_running _ false env (by rfl)]
    rfl

/-- Witness for C1: a concrete failing spawn whose error message is then
returned by `status`. -/
theorem submit_always_inserts_witness :
    ((JobPool.new.submit "abcdfg" [] (Except.error "os error 2")).2.status
        (JobPool.new.submit "abcdfg" [] (Except.error "os error 2")).1 env0).1 =
      some (JobStatus.Error "os error 2") :=
  ((submit_always_inserts JobPool.new "abcdfg" [] (Except.error "os error 2") env0).2
    "os error 2" rfl).2

/-- C2 counterexample: deleting the running job `errJob` (whose advanced
state is `Error msg`) returns the message with the prefix
"deletion resulted in error state: ", not the error message itself. -/
theorem delete_error_message_counterexample :
    (errPool.delete 0 env0).1 =
      some ("deletion resulted in error state: unexpected io error when waiting for job process boom") ∧
    (JobPool.update_job_state errJob true env0).state =
      JobState.Error "unexpected io error when waiting for job process boom" ∧
    (errPool.delete 0 env0).1 ≠
      some "unexpected io error when waiting for job process boom" := by
  refine ⟨by decide, by decide, by decide⟩

/-- C2 (amended): `delete` returns absent when the id is not in the map.
Otherwise it reports `some` exactly when the job was `Running` and the
advanced state is `Error`; the reported string is the Error message of the
advanced job prefixed with "deletion resulted in error state: ".  In every
other case it returns absent. -/
theorem delete_error_reporting :
    ∀ (p : JobPool) (id : Nat) (env : AdvanceEnv),
      (mapLookup p.jobs id = none → p.delete id env = (none, p)) ∧
      (∀ s, (p.delete id env).1 = some s ↔
        ∃ job msg, mapLookup p.jobs id = some job ∧ job.state.isRunning = true ∧
          (JobPool.update_job_state job true env).state = JobState.Error msg ∧
          s = "deletion resulted in error state: " ++ msg) := by
  intro p id env
  refine ⟨delete_eq_of_none p id env, ?_⟩
  intro s
  constructor
  · intro hs
    cases hl : mapLookup p.jobs id with
    | none => rw [delete_eq_of_none p id env hl] at hs; cases hs
    | some job =>
        cases hjs : job.state with
        | Running so se ex =>
            rw [delete_fst_of_running p id env job hl so se ex hjs] at hs
            cases hup : (JobPool.update_job_state job true env).state with
            | Error msg =>
                rw [hup] at hs
                exact ⟨job, msg, rfl, by rw [hjs]; rfl, hup, (Option.some.inj hs).symm⟩
            | Running a b c => rw [hup] at hs; cases hs
            | Completed code => rw [hup] at hs; cases hs
            | Terminated => rw [hup] at hs; cases hs
        | Completed c =>
            rw [delete_fst_of_terminal p id env job hl (by rw [hjs]; rfl)] at hs
            cases hs
        | Terminated =>
            rw [delete_fst_of_terminal p id env job hl (by rw [hjs]; rfl)] at hs
            cases hs
        | Error m =>
            rw [delete_fst_of_terminal p id env job hl (by rw [hjs]; rfl)] at hs
            cases hs
  · rintro ⟨job, msg, hl, hrun, hup, rfl⟩
    cases hjs : job.state with
    | Running so se ex =>
        rw [delete_fst_of_running p id env job hl so se ex hjs, hup]
    | Completed c => rw [hjs] at hrun; simp [JobState.isRunning] at hrun
    | Terminated => rw [hjs] at hrun; simp [JobState.isRunning] at hrun
    | Error m => rw [hjs] at hrun; simp [JobState.isRunning] at hrun

/-- Witness for C2 (amended) at the concrete running job of the
counterexample. -/
theorem delete_error_reporting_witness :
    (errPool.delete 0 env0).1 =
      some ("deletion resulted in error state: " ++
        "unexpected io error when waiting for job process boom") :=
  ((delete_error_reporting errPool 0 env0).2 _).mpr
    ⟨errJob, "unexpected io error when waiting for job process boom",
      by decide, by decide, by decide, rfl⟩

/-- C3: deletion is permanent.  After `delete(id)` the id is gone from the
map; after any further trace of pool operations every `status`, `output`
and `delete` on that id returns absent and the id is not a key of
`list()`. -/
theorem delete_is_permanent :
    ∀ (p : JobPool) (id : Nat) (env : AdvanceEnv) (ops : List PoolOp) (env2 : AdvanceEnv),
      mapLookup (applyOps (p.delete id env).2 ops).jobs id = none ∧
      ((applyOps (p.delete id env).2 ops).status id env2).1 = none ∧
      ((applyOps (p.delete id env).2 ops).output id env2).1 = none ∧
      ((applyOps (p.delete id env).2 ops).delete id env2).1 = none ∧
      mapLookup ((applyOps (p.delete id env).2 ops).list) id = none := by
  intro p id env ops env2
  have h0 : mapLookup (p.delete id env).2.jobs id = none := by
    cases hl : mapLookup p.jobs id with
    | none => rw [delete_eq_of_none p id env hl]; exact hl
    | some job => rw [delete_pool_of_some p id env job hl]; exact mapLookup_mapRemove_self _ _
  have habs := applyOps_absent _ id ops h0
  refine ⟨habs, ?_, ?_, ?_, ?_⟩
  · rw [status_eq_of_none _ id env2 habs]
  · rw [output_eq_of_none _ id env2 habs]
  · rw [delete_eq_of_none _ id env2 habs]
  · unfold JobPool.list
    rw [mapLookup_map_snd Job.spec _ id, habs]
    rfl

/-- C4: terminal states are stable.  `update_job_state` is the identity on
every non-`Running` state; once `status` has returned a terminal variant,
then after any further trace of status / output / delivery operations and
deletes of other ids, `status` on that id returns the same variant with
the same payload. -/
theorem terminal_status_stable :
    (∀ (job : Job) (kill : Bool) (env : AdvanceEnv), job.state.isRunning = false →
      JobPool.update_job_state job kill env = job) ∧
    (∀ (p : JobPool) (id : Nat) (env : AdvanceEnv) (s : JobStatus),
      (p.status id env).1 = some s → s ≠ JobStatus.Running →
      ∀ (ops : List PoolOp), (∀ op ∈ ops, op.isDeleteOf id = false) →
      ∀ (env2 : AdvanceEnv),
        ((applyOps (p.status id env).2 ops).status id env2).1 = some s) := by
  constructor
  · exact update_job_state_of_not_running
  · intro p id env s hs hnr ops hops env2
    cases hl : mapLookup p.jobs id with
    | none => rw [status_eq_of_none p id env hl] at hs; cases hs
    | some job =>
        rw [status_eq_of_some p id env job hl] at hs
        have hsval : JobStatus.fromState (JobPool.update_job_state job false env).state = s :=
          Option.some.inj hs
        have hterm : (JobPool.update_job_state job false env).state.isRunning = false := by
          cases hj : (JobPool.update_job_state job false env).state with
          | Running a b c =>
              exfalso
              apply hnr
              rw [← hsval, hj]
              rfl
          | Completed c => rfl
          | Terminated => rfl
          | Error m => rfl
        have hpost : mapLookup (p.status id env).2.jobs id =
            some (JobPool.update_job_state job false env) := by
          rw [status_eq_of_some p id env job hl]
          exact mapLookup_mapInsert_self _ _ _
        have hstable := applyOps_stable _ id _ hpost hterm ops hops
        rw [status_eq_of_some _ id env2 _ hstable,
          update_job_state_of_not_running _ false env2 hterm]
        rw [← hsval]

/-- Witness for C4: a completed job keeps reporting `Completed 0` after an
output read and a delivery. -/
theorem terminal_status_stable_witness :
    ((applyOps (donePool.status 0 env0).2
        [PoolOp.outputOp 0 env0, PoolOp.deliverOp 0 arr0]).status 0 env0).1 =
      some (JobStatus.Completed 0) :=
  terminal_status_stable.2 donePool 0 env0 (JobStatus.Completed 0) (by decide) (by decide)
    [PoolOp.outputOp 0 env0, PoolOp.deliverOp 0 arr0] (by decide) env0

/-- C5: output only grows.  `JobOutput.append` only appends at the end of
the two line lists, `update_job_state` only extends the recorded output,
and for two successive `output` reads of the same job, with arbitrary
channel arrivals delivered in between, the first result is a prefix of the
second on both streams. -/
theorem output_only_grows :
    (∀ (o : JobOutput) (ls es : List String),
      (o.append ls es).stdout_lines = o.stdout_lines ++ ls ∧
      (o.append ls es).stderr_lines = o.stderr_lines ++ es) ∧
    (∀ (job : Job) (kill : Bool) (env : AdvanceEnv),
      ∃ t u, (JobPool.update_job_state job kill env).output.stdout_lines =
          job.output.stdout_lines ++ t ∧
        (JobPool.update_job_state job kill env).output.stderr_lines =
          job.output.stderr_lines ++ u) ∧
    (∀ (p : JobPool) (id : Nat) (env1 : AdvanceEnv) (a : Arrivals) (env2 : AdvanceEnv)
      (o1 o2 : JobOutput),
      (p.output id env1).1 = some o1 →
      (((p.output id env1).2.deliverTo id a).output id env2).1 = some o2 →
      ∃ t u, o2.stdout_lines = o1.stdout_lines ++ t ∧
        o2.stderr_lines = o1.stderr_lines ++ u) := by
  refine ⟨fun o ls es => ⟨rfl, rfl⟩, update_job_state_output_extends, ?_⟩
  intro p id env1 a env2 o1 o2 h1 h2
  cases hl : mapLookup p.jobs id with
  | none => rw [output_eq_of_none p id env1 hl] at h1; cases h1
  | some job =>
      rw [output_fst_of_some p id env1 job hl] at h1
      have ho1 : (JobPool.update_job_state job false env1).output = o1 := Option.some.inj h1
      have hl1 := output_lookup_after p id env1 job hl
      have hl2 := deliverTo_lookup_after _ id a _ hl1
      rw [output_fst_of_some _ id env2 _ hl2] at h2
      have ho2 : (JobPool.update_job_state
          ((JobPool.update_job_state job false env1).deliver a) false env2).output = o2 :=
        Option.some.inj h2
      obtain ⟨t, u, ht, hu⟩ := update_job_state_output_extends
        ((JobPool.update_job_state job false env1).deliver a) false env2
      refine ⟨t, u, ?_, ?_⟩
      · rw [← ho2, ht, Job.deliver_output, ho1]
      · rw [← ho2, hu, Job.deliver_output, ho1]

/-- Witness for C5: two successive output reads of `streamJob` with one
line delivered in between; the first read is a prefix of the second. -/
theorem output_only_grows_witness :
    ((streamPool.output 0 env0).1 =
        some { stdout_lines := ["hi\n"], stderr_lines := [] } ∧
      (((streamPool.output 0 env0).2.deliverTo 0 arr0).output 0 env0).1 =
        some { stdout_lines := ["hi\n", "hi\n"], stderr_lines := [] }) ∧
    ∃ t u,
      ({ stdout_lines := ["hi\n", "hi\n"], stderr_lines := [] } : JobOutput).stdout_lines =
        ({ stdout_lines := ["hi\n"], stderr_lines := [] } : JobOutput).stdout_lines ++ t ∧
      ({ stdout_lines := ["hi\n", "hi\n"], stderr_lines := [] } : JobOutput).stderr_lines =
        ({ stdout_lines := ["hi\n"], stderr_lines := [] } : JobOutput).stderr_lines ++ u :=
  ⟨⟨by decide, by decide⟩,
    output_only_grows.2.2 streamPool 0 env0 arr0 env0 _ _ (by decide) (by decide)⟩

/-- C6: drain-until.  The drained lines are, in arrival order, the longest
prefix of the buffered pairs in which every pair before the last has
timestamp at most the cutoff; drainage stops either at the end of the
buffer or immediately after pulling the first pair with timestamp strictly
greater than the cutoff, and that pair is included; the rest of the buffer
is left in place.  The function is a total structural recursion on the
buffered list, so it never blocks. -/
theorem receive_lines_until_spec :
    ∀ (buf : List (String × Instant)) (untilT : Instant),
      ∃ n, n ≤ buf.length ∧
        (receive_lines_until buf untilT).1 = (buf.take n).map Prod.fst ∧
        (receive_lines_until buf untilT).2 = buf.drop n ∧
        (∀ pr ∈ buf.take (n - 1), pr.2 ≤ untilT) ∧
        (n = buf.length ∨ ∃ pr, (buf.take n).getLast? = some pr ∧ untilT < pr.2) ∧
        (∀ m, m ≤ buf.length → (∀ pr ∈ buf.take (m - 1), pr.2 ≤ untilT) → m ≤ n) := by
  intro buf untilT
  induction buf with
  | nil =>
      refine ⟨0, Nat.le_refl 0, rfl, rfl, ?_, Or.inl rfl, ?_⟩
      · intro pr hpr
        simp at hpr
      · intro m hm _
        exact hm
  | cons hd tl ih =>
      obtain ⟨line, ts⟩ := hd
      by_cases hts : untilT < ts
      · refine ⟨1, ?_, ?_, ?_, ?_, ?_, ?_⟩
        · exact Nat.succ_le_succ (Nat.zero_le _)
        · simp [receive_lines_until, hts]
        · simp [receive_lines_until, hts]
        · intro pr hpr
          simp at hpr
        · exact Or.inr ⟨(line, ts), by simp, hts⟩
        · intro m hm hall
          by_contra h1
          have h2 : 2 ≤ m := by omega
          have hmem : (line, ts) ∈ List.take (m - 1) ((line, ts) :: tl) := by
            have hsplit : m - 1 = (m - 2) + 1 := by omega
            rw [hsplit, List.take_succ_cons]
            exact List.mem_cons_self _ _
          have hcon : ts ≤ untilT := hall _ hmem
          exact (Nat.not_le.mpr hts) hcon
      · obtain ⟨n, hn, h1, h2, h3, h4, h5⟩ := ih
        refine ⟨n + 1, Nat.succ_le_succ hn, ?_, ?_, ?_, ?_, ?_⟩
        · simp only [receive_lines_until, if_neg hts, List.take_succ_cons, List.map_cons]
          rw [h1]
        · simp only [receive_lines_until, if_neg hts, List.drop_succ_cons]
          exact h2
        · intro pr hpr
          rcases n with _ | k
          · simp at hpr
          · rw [Nat.succ_sub_one, List.take_succ_cons] at hpr
            rcases List.mem_cons.mp hpr with hpr | hpr
            · rw [hpr]
              exact Nat.le_of_not_lt hts
            · exact h3 pr (by rw [Nat.succ_sub_one]; exact hpr)
        · rcases h4 with h4 | ⟨pr, hlast, hgt⟩
          · exact Or.inl (by rw [List.length_cons, h4])
          · refine Or.inr ⟨pr, ?_, hgt⟩
            rw [List.take_succ_cons]
            cases htk : List.take n tl with
            | nil => rw [htk] at hlast; cases hlast
            | cons y ys =>
                rw [htk] at hlast
                rw [List.getLast?_cons_cons]
                exact hlast
        · intro m hm hall
          rcases m with _ | k
          · exact Nat.zero_le _
          · have hk : k ≤ n := by
              apply h5 k (by simpa using hm)
              intro pr hpr
              apply hall
              rcases k with _ | k2
              · simp at hpr
              · rw [Nat.succ_sub_one, List.take_succ_cons]
                rw [Nat.succ_sub_one] at hpr
                exact List.mem_cons_of_mem _ hpr
            exact Nat.succ_le_succ hk

/-- C7 counterexample: after a read error that is not invalid UTF-8 the
reader loop does not stop: the unmodified buffer (empty here) is sent as a
line and further lines are still emitted for the stream. -/
theorem read_error_stop_counterexample :
    read_to_end [ReadEvent.otherError "", ReadEvent.line "hi\n", ReadEvent.eof] =
      ["", "hi\n"] := by decide

/-- C7 (amended): on an invalid-UTF-8 read error the reader emits a line
holding the literal sentinel and continues; on any other read error it
logs the error, still emits the current line buffer as a line, and
continues reading; only end-of-file stops the stream.  Over any prefix of
read events free of end-of-file the emitted lines are exactly one line per
event. -/
theorem read_to_end_continues :
    ∀ (pre rest : List ReadEvent), (∀ e ∈ pre, e ≠ ReadEvent.eof) →
      read_to_end (pre ++ rest) = pre.map eventLine ++ read_to_end rest := by
  intro pre rest
  induction pre with
  | nil => intro _; rfl
  | cons e tl ih =>
      intro h
      have he : e ≠ ReadEvent.eof := h e (List.mem_cons_self e tl)
      have htl : ∀ x ∈ tl, x ≠ ReadEvent.eof := fun x hx => h x (List.mem_cons_of_mem e hx)
      cases e with
      | line s => simp [read_to_end, eventLine, ih htl]
      | eof => exact absurd rfl he
      | invalidData => simp [read_to_end, eventLine, ih htl]
      | otherError s => simp [read_to_end, eventLine, ih htl]

/-- Witness for C7 (amended): an invalid-UTF-8 error and another io error
both leave the stream alive; the following line is still emitted. -/
theorem read_to_end_continues_witness :
    (∀ e ∈ [ReadEvent.invalidData, ReadEvent.otherError "x"], e ≠ ReadEvent.eof) ∧
    read_to_end ([ReadEvent.invalidData, ReadEvent.otherError "x"] ++
        [ReadEvent.line "a\n", ReadEvent.eof]) =
      [ReadEvent.invalidData, ReadEvent.otherError "x"].map eventLine ++
        read_to_end [ReadEvent.line "a\n", ReadEvent.eof] :=
  ⟨by decide, read_to_end_continues _ _ (by decide)⟩

/-- C8: `list` is a pure snapshot: it is a read-only function of the pool
whose key set is exactly the key set of the job map, each id mapped to the
stored spec; `submit` stores exactly `JobSpec.new command args` under the
returned id; and `status` / `output` never change any stored spec, so the
spec listed for an id stays the one passed to the submit that created
it. -/
theorem list_snapshot :
    ∀ (p : JobPool) (id : Nat) (command : String) (args : List String)
      (spawnRes : Except String (Option Nat)) (env : AdvanceEnv),
      (mapLookup (JobPool.list p) id = (mapLookup p.jobs id).map Job.spec) ∧
      ((mapLookup (p.submit command args spawnRes).2.jobs
          (p.submit command args spawnRes).1).map Job.spec =
        some (JobSpec.new command args)) ∧
      (∀ i, (mapLookup (p.status id env).2.jobs i).map Job.spec =
        (mapLookup p.jobs i).map Job.spec) ∧
      (∀ i, (mapLookup (p.output id env).2.jobs i).map Job.spec =
        (mapLookup p.jobs i).map Job.spec) := by
  intro p id command args spawnRes env
  refine ⟨mapLookup_map_snd Job.spec p.jobs id, ?_, ?_, ?_⟩
  · cases spawnRes <;> simp [JobPool.submit, mapLookup_mapInsert_self]
  · intro i
    cases hl : mapLookup p.jobs id with
    | none => rw [status_eq_of_none p id env hl]
    | some job =>
        rw [status_eq_of_some p id env job hl]
        by_cases hi : id = i
        · subst hi
          rw [mapLookup_mapInsert_self, hl]
          simp [update_job_state_spec]
        · rw [mapLookup_mapInsert_ne _ id i _ hi, mapLookup_mapRemove_ne _ id i hi]
  · intro i
    cases hl : mapLookup p.jobs id with
    | none => rw [output_eq_of_none p id env hl]
    | some job =>
        rw [output_eq_of_some p id env job hl]
        by_cases hi : id = i
        · subst hi
          rw [mapLookup_mapInsert_self, hl]
          simp [update_job_state_spec]
        · rw [mapLookup_mapInsert_ne _ id i _ hi, mapLookup_mapRemove_ne _ id i hi]

theorem submitN_counter (f : Nat → String × List String × Except String (Option Nat))
    (n : Nat) : (submitN JobPool.new f n).next_job_id = n % u64Mod := by
  induction n with
  | zero => rfl
  | succ n ih =>
      have h1 : (1 : Nat) % u64Mod = 1 := Nat.mod_eq_of_lt (by norm_num [u64Mod])
      calc ((submitN JobPool.new f n).submit (f n).1 (f n).2.1 (f n).2.2).2.next_job_id
          = ((submitN JobPool.new f n).next_job_id % u64Mod + 1) % u64Mod := rfl
        _ = (n % u64Mod % u64Mod + 1) % u64Mod := by rw [ih]
        _ = (n % u64Mod + 1) % u64Mod := by rw [Nat.mod_mod_of_dvd n (dvd_refl u64Mod)]
        _ = (n % u64Mod + 1 % u64Mod) % u64Mod := by rw [h1]
        _ = (n + 1) % u64Mod := (Nat.add_mod n 1 u64Mod).symm

theorem nthSubmitId_eq (f : Nat → String × List String × Except String (Option Nat))
    (n : Nat) : nthSubmitId JobPool.new f n = n % u64Mod := by
  calc nthSubmitId JobPool.new f n
      = (submitN JobPool.new f n).next_job_id % u64Mod := rfl
    _ = n % u64Mod % u64Mod := by rw [submitN_counter]
    _ = n % u64Mod := Nat.mod_mod_of_dvd n (dvd_refl u64Mod)

/-- C9 counterexample: the id counter is a wrapping u64 fetch-and-add, so
submit invocation number 0 and submit invocation number 2^64 on the same
pool return the same id even though they are distinct invocations. -/
theorem submit_id_wrap_counterexample :
    nthSubmitId JobPool.new (fun _ => ("echo", ["hi"], Except.ok (some 1))) 0 =
      nthSubmitId JobPool.new (fun _ => ("echo", ["hi"], Except.ok (some 1))) (2 ^ 64) ∧
    (0 : Nat) ≠ 2 ^ 64 := by
  constructor
  · rw [nthSubmitId_eq, nthSubmitId_eq]
    simp [u64Mod, Nat.zero_mod, Nat.mod_self]
  · norm_num

/-- C9 (amended): among the first 2^64 submit invocations on a fresh pool,
any two distinct invocations return distinct ids. -/
theorem submit_ids_distinct :
    ∀ (f : Nat → String × List String × Except String (Option Nat)) (i j : Nat),
      i < u64Mod → j < u64Mod → i ≠ j →
      nthSubmitId JobPool.new f i ≠ nthSubmitId JobPool.new f j := by
  intro f i j hi hj hne
  rw [nthSubmitId_eq, nthSubmitId_eq, Nat.mod_eq_of_lt hi, Nat.mod_eq_of_lt hj]
  exact hne

/-- Witness for C9 (amended): the first two submit invocations return
distinct ids. -/
theorem submit_ids_distinct_witness :
    (0 : Nat) < u64Mod ∧ (1 : Nat) < u64Mod ∧ (0 : Nat) ≠ 1 ∧
    nthSubmitId JobPool.new (fun _ => ("echo", ["hi"], Except.ok (some 1))) 0 ≠
      nthSubmitId JobPool.new (fun _ => ("echo", ["hi"], Except.ok (some 1))) 1 :=
  ⟨by norm_num [u64Mod], by norm_num [u64Mod], by norm_num,
    submit_ids_distinct _ 0 1 (by norm_num [u64Mod]) (by norm_num [u64Mod]) (by norm_num)⟩

/-- C10: for a job whose spawn failed, every `output` read before deletion
(through any trace of reads, deliveries and deletes of other ids) returns
`some` empty output rather than absent or an error, and `delete` on that
id returns absent and is independent of the advance environment: it sends
no kill signal and awaits no channel. -/
theorem spawn_failed_output_and_delete :
    ∀ (p : JobPool) (command : String) (args : List String) (msg : String)
      (ops : List PoolOp) (env env2 : AdvanceEnv),
      (∀ op ∈ ops, op.isDeleteOf (p.submit command args (Except.error msg)).1 = false) →
      ((applyOps (p.submit command args (Except.error msg)).2 ops).output
          (p.submit command args (Except.error msg)).1 env).1 =
        some { stdout_lines := [], stderr_lines := [] } ∧
      ((applyOps (p.submit command args (Except.error msg)).2 ops).delete
          (p.submit command args (Except.error msg)).1 env).1 = none ∧
      (applyOps (p.submit command args (Except.error msg)).2 ops).delete
          (p.submit command args (Except.error msg)).1 env =
        (applyOps (p.submit command args (Except.error msg)).2 ops).delete
          (p.submit command args (Except.error msg)).1 env2 := by
  intro p command args msg ops env env2 hops
  have hlook : mapLookup (p.submit command args (Except.error msg)).2.jobs
      (p.submit command args (Except.error msg)).1 =
      some { id := (p.submit command args (Except.error msg)).1, pid := none,
             spec := JobSpec.new command args, state := JobState.Error msg,
             output := JobOutput.new } := by
    simp [JobPool.submit, mapLookup_mapInsert_self]
  have hstable := applyOps_stable _ _ _ hlook (by rfl) ops hops
  refine ⟨?_, ?_, ?_⟩
  · rw [output_fst_of_some _ _ env _ hstable,
      update_job_state_of_not_running _ false env (by rfl)]
    rfl
  · exact delete_fst_of_terminal _ _ env _ hstable (by rfl)
  · have hfst : ((applyOps (p.submit command args (Except.error msg)).2 ops).delete
        (p.submit command args (Except.error msg)).1 env).1 =
        ((applyOps (p.submit command args (Except.error msg)).2 ops).delete
          (p.submit command args (Except.error msg)).1 env2).1 := by
      rw [delete_fst_of_terminal _ _ env _ hstable (by rfl),
        delete_fst_of_terminal _ _ env2 _ hstable (by rfl)]
    have hsnd : ((applyOps (p.submit command args (Except.error msg)).2 ops).delete
        (p.submit command args (Except.error msg)).1 env).2 =
        ((applyOps (p.submit command args (Except.error msg)).2 ops).delete
          (p.submit command args (Except.error msg)).1 env2).2 := by
      rw [delete_pool_of_some _ _ env _ hstable, delete_pool_of_some _ _ env2 _ hstable]
    exact Prod.ext_iff.mpr ⟨hfst, hsnd⟩

/-- Witness for C10: a concrete failed spawn whose output reads empty
after an unrelated status call. -/
theorem spawn_failed_output_and_delete_witness :
    ((applyOps (JobPool.new.submit "abcdfg" [] (Except.error "boom")).2
        [PoolOp.statusOp 0 env0, PoolOp.outputOp 3 env0]).output
        (JobPool.new.submit "abcdfg" [] (Except.error "boom")).1 env0).1 =
      some { stdout_lines := [], stderr_lines := [] } :=
  (spawn_failed_output_and_delete JobPool.new "abcdfg" [] "boom"
    [PoolOp.statusOp 0 env0, PoolOp.outputOp 3 env0] env0 env0 (by decide)).1
